import Mathlib

/-!
Verification of the request-lifecycle core described in `spec.md` against
the repository source `src/src/flask/app.py`.  The provided source file
contains the `Flask` class constructor, the `name` property, `make_config`
and `run`; the lifecycle dispatcher, context stack, hook runners, response
conversion and error-handler lookup that the spec describes are declared
there (hook registries, `error_handler_spec`) but their executing code is
not part of the provided source, so those parts are modelled from the spec
and marked as such in their doc comments.
-/

/-- Canonical HTTP response representation (spec section 6): integer status,
ordered header list permitting duplicates, body (bytes modelled as a
string). -/
structure Response where
  status : Nat
  headers : List (String × String)
  body : String
  deriving Repr, DecidableEq

/-- Handler return shapes enumerated in spec section 4.4 step 3: a
response-like object, a bare body string or bytes, a (body, status) pair,
a (body, status, headers) triple, or any other shape. -/
inductive HandlerRv where
  | response (r : Response)
  | body (s : String)
  | pair (s : String) (status : Nat)
  | triple (s : String) (status : Nat) (headers : List (String × String))
  | invalid
  deriving Repr, DecidableEq

/-- An exception value raised by user code, modelled by an identifying
number. -/
abbrev Exc := Nat

/-- Fatal conditions that end a request without a converted response (spec
section 7): a ContractViolation (stack mismatch or invalid response shape
from a handler), external cancellation, or a fault re-raised because the
propagate-faults mode is enabled (spec section 4.4 step 4). -/
inductive Fatal where
  | contractViolation
  | cancelled
  | propagated (e : Exc)
  deriving Repr, DecidableEq

/-- Modelled from the spec: the canonical response-conversion function of
spec section 4.4 step 3 (the conversion code, Flask `make_response`, is not
part of the provided source).  A response-like object passes through
unchanged; a body string or bytes gets default status 200; a (body, status)
pair and a (body, status, headers) triple set those fields; any other shape
is a programming error, surfaced as a ContractViolation. -/
def make_response : HandlerRv → Except Fatal Response
  | .response r => .ok r
  | .body s => .ok ⟨200, [], s⟩
  | .pair s st => .ok ⟨st, [], s⟩
  | .triple s st hs => .ok ⟨st, hs, s⟩
  | .invalid => .error .contractViolation

/-- Number of occurrences of header `n` in a response. -/
def Response.headerCount (r : Response) (n : String) : Nat :=
  (r.headers.filter (fun p => p.1 == n)).length

/-- A context identity; the spec phrase "same identity" is object identity,
modelled by an identifying number. -/
abbrev CtxId := Nat

/-- Modelled from the spec: Context Stack push (spec section 4.1) appends to
the top (the stack implementation, `flask/globals.py`, is not part of the
provided source).  The top of the stack is the list head. -/
def stackPush (ctx : CtxId) (s : List CtxId) : List CtxId := ctx :: s

/-- Modelled from the spec: Context Stack pop (spec section 4.1): removes
and returns the top together with the remaining stack, failing with a
ContractViolation when the popped object is not the same identity as
`expected`, the object that the caller believes was most recently pushed
(the stack implementation is not part of the provided source). -/
def stackPop (expected : CtxId) (s : List CtxId) :
    Except Fatal (CtxId × List CtxId) :=
  match s with
  | [] => .error .contractViolation
  | top :: rest =>
      if top = expected then .ok (top, rest) else .error .contractViolation

/-- The value passed for the `template_folder` constructor argument
(src/src/flask/app.py line 223): `None`, a string, or a list of strings. -/
inductive TemplateFolderArg where
  | pyNone
  | pyStr (s : String)
  | pyList (l : List String)
  deriving Repr, DecidableEq

/-- src/src/flask/app.py lines 234-239: normalization of the constructor
argument `template_folder`: a string becomes a one-element list, a list is
stored as given, `None` is stored as `None`. -/
def initTemplateFolder : TemplateFolderArg → TemplateFolderArg
  | .pyStr s => .pyList [s]
  | .pyList l => .pyList l
  | .pyNone => .pyNone

/-- Index of the last occurrence of `c` in a character list, if any. -/
def rfindIdx (c : Char) : List Char → Option Nat
  | [] => none
  | a :: rest =>
      match rfindIdx c rest with
      | some i => some (i + 1)
      | none => if a = c then some 0 else none

/-- Modelled from the Python standard library `posixpath.basename`:
everything after the last path separator. -/
def os_path_basename (p : String) : String :=
  match rfindIdx '/' p.data with
  | some i => ⟨p.data.drop (i + 1)⟩
  | none => p

/-- Modelled from the Python standard library `posixpath.splitext`: split at
the last dot that lies after the last path separator, provided some non-dot
character of the final path component precedes that dot (so names made only
of leading dots, such as ".bashrc", are not split). -/
def os_path_splitext (p : String) : String × String :=
  let l := p.data
  let sepIdx : Int := match rfindIdx '/' l with | some i => (i : Int) | none => -1
  let dotIdx : Int := match rfindIdx '.' l with | some i => (i : Int) | none => -1
  if sepIdx < dotIdx then
    if (List.range l.length).any
        (fun j => decide (sepIdx < (j : Int)) && decide ((j : Int) < dotIdx)
          && (l.getD j '.' != '.')) then
      (⟨l.take dotIdx.toNat⟩, ⟨l.drop dotIdx.toNat⟩)
    else (p, "")
  else (p, "")

/-- src/src/flask/app.py lines 285-296, the `Flask.name` property: the name
given at construction, unless it is "__main__", in which case the basename of the
`__file__` attribute of the `__main__` module with its extension stripped,
or "__main__" when that module has no `__file__` attribute.  `mainFile`
models `getattr(sys.modules["__main__"], "__file__", None)`. -/
def Flask.name (import_name : String) (mainFile : Option String) : String :=
  if import_name = "__main__" then
    match mainFile with
    | none => "__main__"
    | some fn => (os_path_splitext (os_path_basename fn)).1
  else import_name

/-- Digits of a decimal numeral to its value; `none` when the list is empty
or holds a non-digit. -/
def digitsToNat (l : List Char) : Option Nat :=
  if l.isEmpty || !l.all Char.isDigit then none
  else some (l.foldl (fun acc c => acc * 10 + (c.toNat - 48)) 0)

/-- Modelled from the Python built-in `int()` applied to a string: optional
surrounding spaces, an optional sign, then decimal digits; any other input
raises ValueError, modelled as `none` (underscore digit grouping is not
modelled). -/
def pyIntParse (s : String) : Option Int :=
  let l := ((s.data.dropWhile (fun c => c = ' ')).reverse.dropWhile
      (fun c => c = ' ')).reverse
  match l with
  | '-' :: rest => (digitsToNat rest).map (fun n => -(n : Int))
  | '+' :: rest => (digitsToNat rest).map (fun n => (n : Int))
  | _ => (digitsToNat l).map (fun n => (n : Int))

/-- Modelled from the Python string method `rsplit(":", 1)[1]` as used in
src/src/flask/app.py line 366: the substring after the last colon.  The
source only evaluates it when a colon is present. -/
def afterLastColon (s : String) : String :=
  match rfindIdx ':' s.data with
  | some i => ⟨s.data.drop (i + 1)⟩
  | none => s

/-- src/src/flask/app.py lines 359-360 (`Flask.run`): a `None` host defaults
to "127.0.0.1". -/
def Flask.run_host (host : Option String) : String :=
  match host with
  | none => "127.0.0.1"
  | some h => h

/-- src/src/flask/app.py lines 362-368 (`Flask.run`): a `None` port is taken
from the configured `SERVER_NAME` when that value is truthy and contains a
colon, by converting the substring after the last colon with `int()`;
otherwise the port defaults to 5000.  `serverName` models
`self.config["SERVER_NAME"]` (`None` or the configured string); a `none`
result models the ValueError raised by `int()` on a malformed port. -/
def Flask.run_port (port : Option Int) (serverName : Option String) :
    Option Int :=
  match port with
  | some p => some p
  | none =>
      match serverName with
      | some sn =>
          if !sn.isEmpty && sn.data.contains ':' then
            pyIntParse (afterLastColon sn)
          else some 5000
      | none => some 5000

/-- A Python-level error raised while evaluating a statement. -/
inductive PyErr where
  | attributeError (module attr : String)
  deriving Repr, DecidableEq

/-- Modelled from the Python standard library: the `typing` module, imported
as `t` in src/src/flask/app.py line 12, defines no attribute `RLock` (locks
live in the `threading` module), so the attribute lookup `t.RLock` produces
no value. -/
def typing_RLock : Option Unit := none

/-- src/src/flask/app.py lines 278-279: the constructor statements
`self._got_first_request = False` and `self._before_request_lock =
t.RLock()`.  Evaluating `t.RLock()` first looks up the attribute `RLock` on
the `typing` module; a missing attribute raises AttributeError.  Returns
the (latch, lock) pair the spec requires, or the raised error. -/
def initFirstRequestState : Except PyErr (Bool × Unit) :=
  match typing_RLock with
  | some lock => .ok (false, lock)
  | none => .error (.attributeError "typing" "RLock")

/-- An exception class, modelled by its method resolution order: the list of
type identifiers from the exact class (head) to the most basic class, plus
the intrinsic HTTP status code when the class is an HTTPException subclass
(spec section 3 Error Handler Table keys). -/
structure ExcClass where
  mro : List Nat
  code : Option Nat
  deriving Repr, DecidableEq

/-- A scope key: `some b` for the blueprint named `b`, `none` for the
application-wide scope, matching `AppOrBlueprintKey` in the registry
declarations of src/src/flask/app.py lines 249-252. -/
abbrev ScopeKey := Option String

/-- One entry of the error-handler table `error_handler_spec` declared at
src/src/flask/app.py lines 249-252: scope key, optional status code,
exception type, handler (modelled by an identifying number). -/
structure ErrorHandlerEntry where
  scope : ScopeKey
  code : Option Nat
  excType : Nat
  handler : Nat
  deriving Repr, DecidableEq

/-- Modelled from the spec: the within-scope part of the error-handler
lookup (spec section 4.4 step 4; the lookup code of the repository is not
part of the provided source): walk the method resolution order of the
raised exception from the exact class to base classes and return the first
handler registered in this scope for the status code and type. -/
def findHandlerInScope (table : List ErrorHandlerEntry) (scope : ScopeKey)
    (code : Option Nat) : List Nat → Option Nat
  | [] => none
  | ty :: rest =>
      match table.find? (fun e =>
          e.scope == scope && e.code == code && e.excType == ty) with
      | some e => some e.handler
      | none => findHandlerInScope table scope code rest

/-- Modelled from the spec: dispatch-time error-handler lookup (spec
section 4.4 step 4 and section 3 Error Handler Table; the lookup code of
the repository is not part of the provided source): walk the active scopes
from the innermost blueprint to the application-wide scope, and within each
scope prefer the most specific exception type. -/
def findErrorHandler (table : List ErrorHandlerEntry) (scopes : List ScopeKey)
    (exc : ExcClass) : Option Nat :=
  match scopes with
  | [] => none
  | sc :: rest =>
      match findHandlerInScope table sc exc.code exc.mro with
      | some h => some h
      | none => findErrorHandler table rest exc

/-- A registered hook: an identifying number plus its behavior when
invoked. -/
structure Hook (β : Type) where
  id : Nat
  behavior : β
  deriving Repr, DecidableEq

/-- Behavior of a url-value preprocessor (spec section 4.4 step 2): proceed
normally or raise. -/
inductive PreBehavior where
  | proceed
  | raises (e : Exc)
  deriving Repr, DecidableEq

/-- Behavior of a before-request hook (spec section 4.4 step 2): continue
(return a continue value), short-circuit with a non-continue return value,
or raise. -/
inductive BeforeBehavior where
  | proceed
  | shortCircuit (rv : HandlerRv)
  | raises (e : Exc)
  deriving Repr, DecidableEq

/-- Behavior of the resolved handler (spec section 4.4 step 3, section 5):
return a value, raise, or be cancelled externally. -/
inductive HandlerBehavior where
  | returns (rv : HandlerRv)
  | raises (e : Exc)
  | cancelled
  deriving Repr, DecidableEq

/-- Behavior of an after-request hook (spec section 4.4 step 5): return the
received response, return a replacement response, or raise. -/
inductive AfterBehavior where
  | keep
  | replace (r : Response)
  | raises (e : Exc)
  deriving Repr, DecidableEq

/-- Everything one dispatched request depends on: the registered hooks of
the relevant scope in registration order, the resolved handler, the error
handling configuration, and whether an application context is already
active on the Context Stack (spec sections 4.3 and 4.4).  The Boolean on a
teardown hook tells whether it raises (spec section 4.3: such failures are
reported but do not stop remaining teardown hooks). -/
structure DispatchEnv where
  preprocessors : List (Hook PreBehavior)
  beforeHooks : List (Hook BeforeBehavior)
  handler : HandlerBehavior
  afterHooks : List (Hook AfterBehavior)
  teardownHooks : List (Hook Bool)
  errorHandler : Exc → Option Response
  propagate : Bool
  appCtxActive : Bool

/-- Modelled from the spec: the error path of spec section 4.4 step 4: a
registered handler converts the fault to a response; otherwise a generic
500 response is synthesized, unless the propagate-faults mode is enabled,
in which case the fault is re-raised. -/
def handleError (env : DispatchEnv) (e : Exc) : Except Fatal Response :=
  match env.errorHandler e with
  | some r => .ok r
  | none =>
      if env.propagate then .error (.propagated e)
      else .ok ⟨500, [], "Internal Server Error"⟩

/-- Observable events of one request, in order: context pushes and pops and
hook or handler invocations (hooks identified by their number). -/
inductive Event where
  | pushApp
  | pushReq
  | popApp
  | popReq
  | preprocessor (i : Nat)
  | beforeHook (i : Nat)
  | handlerCall
  | afterHook (i : Nat)
  | teardownHook (i : Nat)
  deriving Repr, DecidableEq

/-- Modelled from the spec: run the url-value preprocessors in registration
order (spec section 4.4 step 2); a raise enters the error path.  Returns
the identifiers of the invoked preprocessors and the raised exception, if
any. -/
def runPreprocessors : List (Hook PreBehavior) → List Nat × Option Exc
  | [] => ([], none)
  | h :: rest =>
      match h.behavior with
      | .proceed =>
          let r := runPreprocessors rest
          (h.id :: r.1, r.2)
      | .raises e => ([h.id], some e)

/-- Outcome of the before-request hook chain. -/
inductive BeforeResult where
  | allProceeded
  | shortCircuit (rv : HandlerRv)
  | raised (e : Exc)
  deriving Repr, DecidableEq

/-- Modelled from the spec: run the before-request hooks in registration
order (spec section 4.4 step 2); the first hook returning a non-continue
value short-circuits, and a raise enters the error path.  Returns the
identifiers of the invoked hooks and the outcome. -/
def runBeforeHooks : List (Hook BeforeBehavior) → List Nat × BeforeResult
  | [] => ([], .allProceeded)
  | h :: rest =>
      match h.behavior with
      | .proceed =>
          let r := runBeforeHooks rest
          (h.id :: r.1, r.2)
      | .shortCircuit rv => ([h.id], .shortCircuit rv)
      | .raises e => ([h.id], .raised e)

/-- Modelled from the spec: run the after-request hooks on a response (spec
section 4.4 step 5); each receives the current response and returns a
response (same or replacement); a raise stops the chain and re-enters the
error path.  The argument list is already in execution order (the caller
reverses the registration order).  Returns the identifiers of the invoked
hooks and the final response or the raised exception. -/
def runAfterHooks : List (Hook AfterBehavior) → Response →
    List Nat × Except Exc Response
  | [], resp => ([], .ok resp)
  | h :: rest, resp =>
      match h.behavior with
      | .keep =>
          let r := runAfterHooks rest resp
          (h.id :: r.1, r.2)
      | .replace r2 =>
          let r := runAfterHooks rest r2
          (h.id :: r.1, r.2)
      | .raises e => ([h.id], .error e)

/-- Modelled from the spec: PREPROCESSING and DISPATCHING up to
RESPONSE_READY (spec section 4.4 steps 2-4): preprocessors, before-request
hooks with short-circuit, then the handler; raised faults go through the
error path, handler return values through the canonical conversion, and
cancellation skips to finalization.  Returns the events so far and the
response entering RESPONSE_READY (or the fatal outcome). -/
def runUntilResponseReady (env : DispatchEnv) :
    List Event × Except Fatal Response :=
  let p := runPreprocessors env.preprocessors
  let pevs := p.1.map Event.preprocessor
  match p.2 with
  | some e => (pevs, handleError env e)
  | none =>
      let b := runBeforeHooks env.beforeHooks
      let bevs := b.1.map Event.beforeHook
      match b.2 with
      | .raised e => (pevs ++ bevs, handleError env e)
      | .shortCircuit rv => (pevs ++ bevs, make_response rv)
      | .allProceeded =>
          match env.handler with
          | .raises e => (pevs ++ bevs ++ [Event.handlerCall], handleError env e)
          | .cancelled => (pevs ++ bevs ++ [Event.handlerCall], .error .cancelled)
          | .returns rv => (pevs ++ bevs ++ [Event.handlerCall], make_response rv)

/-- Final outcome of one dispatched request. -/
inductive DispatchResult where
  | response (r : Response)
  | fatal (f : Fatal)
  deriving Repr, DecidableEq

/-- Modelled from the spec: the full lifecycle around one dispatched
request (spec section 4.4; the dispatcher code of the repository is not
part of the provided source).  The Request Context is pushed (pushing an
Application Context first when none is active), the request runs to
RESPONSE_READY, after-request hooks run in reverse registration order on
the response (a raise there re-enters the error path for finalization
purposes only), and FINALIZING always runs: every teardown hook fires in
reverse registration order and the contexts are popped, on every exit path.
Returns the full event trace and the final outcome. -/
def fullDispatch (env : DispatchEnv) : List Event × DispatchResult :=
  let ctxEvs := (if env.appCtxActive then [] else [Event.pushApp]) ++ [Event.pushReq]
  let core := runUntilResponseReady env
  let fin : List Event × DispatchResult :=
    match core.2 with
    | .error f => ([], .fatal f)
    | .ok resp =>
        let a := runAfterHooks env.afterHooks.reverse resp
        let aevs := a.1.map Event.afterHook
        match a.2 with
        | .ok r => (aevs, .response r)
        | .error e =>
            match handleError env e with
            | .ok r => (aevs, .response r)
            | .error f => (aevs, .fatal f)
  let tevs := (env.teardownHooks.reverse.map Hook.id).map Event.teardownHook
  let popEvs := Event.popReq :: (if env.appCtxActive then [] else [Event.popApp])
  (ctxEvs ++ core.1 ++ fin.1 ++ tevs ++ popEvs, fin.2)

/-- Is this event a Context Stack push? -/
def Event.isPush : Event → Bool
  | .pushApp => true
  | .pushReq => true
  | _ => false

/-- Is this event a Context Stack pop? -/
def Event.isPop : Event → Bool
  | .popApp => true
  | .popReq => true
  | _ => false

/-- Identifiers of the invoked url-value preprocessors, in order. -/
def preIds (evs : List Event) : List Nat :=
  evs.filterMap fun e => match e with | .preprocessor i => some i | _ => none

/-- Identifiers of the invoked before-request hooks, in order. -/
def beforeIds (evs : List Event) : List Nat :=
  evs.filterMap fun e => match e with | .beforeHook i => some i | _ => none

/-- Identifiers of the invoked after-request hooks, in order. -/
def afterIds (evs : List Event) : List Nat :=
  evs.filterMap fun e => match e with | .afterHook i => some i | _ => none

/-- Identifiers of the invoked teardown-request hooks, in order. -/
def teardownIds (evs : List Event) : List Nat :=
  evs.filterMap fun e => match e with | .teardownHook i => some i | _ => none

/-- Example handler table for the C4 scenario: a handler (number 10) for
exception type 1 ("ValueErrorLike") registered application-wide, and a more
specific one (number 20) for the same type registered on blueprint "bp". -/
def demoTable : List ErrorHandlerEntry :=
  [⟨none, none, 1, 10⟩, ⟨some "bp", none, 1, 20⟩]

/-- Example raised exception for the C4 scenario: exact class
"ValueErrorLike" (type 1) deriving from a base class (type 0), with no
intrinsic HTTP status. -/
def demoExc : ExcClass := ⟨[1, 0], none⟩

/-- C5: the canonical response-conversion function is total over exactly the
enumerated handler-return shapes: a response-like object passes through
unchanged, a body string yields status 200, pairs and triples set their
fields, and any other shape is a programming error; converting
("hello", 201, [("X-Test","1")]) yields status 201, body "hello" and the
header X-Test=1 exactly once. -/
theorem make_response_spec :
    (∀ r, make_response (.response r) = .ok r) ∧
    (∀ s, make_response (.body s) = .ok ⟨200, [], s⟩) ∧
    (∀ s st, make_response (.pair s st) = .ok ⟨st, [], s⟩) ∧
    (∀ s st hs, make_response (.triple s st hs) = .ok ⟨st, hs, s⟩) ∧
    make_response .invalid = .error .contractViolation ∧
    make_response (.triple "hello" 201 [("X-Test", "1")]) =
      .ok ⟨201, [("X-Test", "1")], "hello"⟩ ∧
    (Response.mk 201 [("X-Test", "1")] "hello").headerCount "X-Test" = 1 := by
  refine ⟨fun r => rfl, fun s => rfl, fun s st => rfl, fun s st hs => rfl,
    rfl, rfl, ?_⟩
  decide

/-- C7: Context Stack pop removes and returns the top element, and fails
with a ContractViolation whenever the popped object is not the identity
most recently pushed; an out-of-order pop is never silently swallowed (it
can never produce an ok result). -/
theorem stackPop_lifo :
    (∀ s ctx, stackPop ctx (stackPush ctx s) = Except.ok (ctx, s)) ∧
    (∀ top rest expected, expected ≠ top →
        stackPop expected (top :: rest) = Except.error Fatal.contractViolation) ∧
    (∀ top rest expected v, stackPop expected (top :: rest) = Except.ok v →
        v = (top, rest) ∧ expected = top) := by
  refine ⟨fun s ctx => by simp [stackPop, stackPush], ?_, ?_⟩
  · intro top rest expected h
    simp [stackPop, Ne.symm h]
  · intro top rest expected v hv
    by_cases h : top = expected
    · subst h
      simp [stackPop] at hv
      exact ⟨hv.symm, rfl⟩
    · simp [stackPop, h] at hv

/-- Witness for C7 at concrete inputs: popping context 7 when context 5 is
on top is a ContractViolation. -/
theorem stackPop_lifo_witness :
    stackPop 7 (stackPush 5 []) = Except.error Fatal.contractViolation :=
  stackPop_lifo.2.1 5 [] 7 (by decide)

/-- C9: the constructor normalizes `template_folder`: a string is stored as
a one-element list, a list is stored as given, `None` is stored as `None`;
hence the stored value is always either `None` or a list. -/
theorem initTemplateFolder_spec :
    (∀ s, initTemplateFolder (.pyStr s) = .pyList [s]) ∧
    (∀ l, initTemplateFolder (.pyList l) = .pyList l) ∧
    initTemplateFolder .pyNone = .pyNone ∧
    (∀ a, initTemplateFolder a = .pyNone ∨
      ∃ l, initTemplateFolder a = .pyList l) := by
  refine ⟨fun s => rfl, fun l => rfl, rfl, fun a => ?_⟩
  cases a with
  | pyNone => exact Or.inl rfl
  | pyStr s => exact Or.inr ⟨[s], rfl⟩
  | pyList l => exact Or.inr ⟨l, rfl⟩

/-- C8: `Flask.name` returns the import name unchanged unless it is
"__main__"; for "__main__" it returns the basename of the `__file__`
attribute of the `__main__` module with its extension stripped, or
"__main__" when that module has no `__file__` attribute. -/
theorem flask_name_spec :
    (∀ inm mf, inm ≠ "__main__" → Flask.name inm mf = inm) ∧
    Flask.name "__main__" none = "__main__" ∧
    (∀ fn, Flask.name "__main__" (some fn) =
      (os_path_splitext (os_path_basename fn)).1) := by
  refine ⟨fun inm mf h => ?_, rfl, fun fn => rfl⟩
  simp [Flask.name, h]

/-- Witness for C8 at concrete inputs: a non-main import name passes
through, and for "__main__" with file "/home/user/run.py" the name is the
basename with the extension stripped. -/
theorem flask_name_spec_witness :
    Flask.name "myapp" none = "myapp" ∧
    Flask.name "__main__" (some "/home/user/run.py") =
      (os_path_splitext (os_path_basename "/home/user/run.py")).1 ∧
    (os_path_splitext (os_path_basename "/home/user/run.py")).1 = "run" :=
  ⟨flask_name_spec.1 "myapp" none (by decide),
    flask_name_spec.2.2 "/home/user/run.py", by decide⟩

/-- C10: `Flask.run` defaults a `None` host to "127.0.0.1"; a `None` port is
parsed as the integer after the last colon of the configured SERVER_NAME
when that value is set and contains a colon, and defaults to 5000
otherwise. -/
theorem run_defaults :
    Flask.run_host none = "127.0.0.1" ∧
    (∀ h, Flask.run_host (some h) = h) ∧
    (∀ p sn, Flask.run_port (some p) sn = some p) ∧
    Flask.run_port none none = some 5000 ∧
    (∀ sn, (sn.isEmpty || !sn.data.contains ':') = true →
        Flask.run_port none (some sn) = some 5000) ∧
    (∀ sn, sn.isEmpty = false → sn.data.contains ':' = true →
        Flask.run_port none (some sn) = pyIntParse (afterLastColon sn)) := by
  refine ⟨rfl, fun h => rfl, fun p sn => rfl, rfl, fun sn h => ?_, fun sn h1 h2 => ?_⟩
  · rcases Bool.or_eq_true_iff.mp h with h | h
    · simp [Flask.run_port, h]
    · simp at h
      simp [Flask.run_port, h]
  · simp at h2
    simp [Flask.run_port, h1, h2]

/-- Witness for C10 at concrete inputs: SERVER_NAME "localhost:8080" yields
port 8080, SERVER_NAME without a colon yields 5000. -/
theorem run_defaults_witness :
    Flask.run_port none (some "localhost:8080") =
      pyIntParse (afterLastColon "localhost:8080") ∧
    pyIntParse (afterLastColon "localhost:8080") = some 8080 ∧
    Flask.run_port none (some "localhost") = some 5000 :=
  ⟨run_defaults.2.2.2.2.2 "localhost:8080" (by decide) (by decide),
    by decide,
    run_defaults.2.2.2.2.1 "localhost" (by decide)⟩

/-- C6: evaluating the constructor statement pair of lines 278-279 raises
AttributeError, because the `typing` module bound to `t` has no `RLock`
attribute; no before-first-request mutex is ever created. -/
theorem init_before_request_lock_raises :
    initFirstRequestState = .error (.attributeError "typing" "RLock") := rfl

/-- C4: error-handler lookup prefers the narrowest active scope over the
application-wide scope, and the exact exception type over base types; in
particular, with a ValueErrorLike handler registered application-wide (10)
and a more specific one on blueprint "bp" (20), a ValueErrorLike fault
raised inside that blueprint selects the blueprint handler. -/
theorem findErrorHandler_most_specific :
    (∀ table sc rest exc h,
        findHandlerInScope table sc exc.code exc.mro = some h →
        findErrorHandler table (sc :: rest) exc = some h) ∧
    (∀ table sc code ty rest e,
        table.find? (fun x =>
          x.scope == sc && x.code == code && x.excType == ty) = some e →
        findHandlerInScope table sc code (ty :: rest) = some e.handler) ∧
    findErrorHandler demoTable [some "bp", none] demoExc = some 20 := by
  refine ⟨fun table sc rest exc h hh => ?_, fun table sc code ty rest e he => ?_, ?_⟩
  · simp [findErrorHandler, hh]
  · simp [findHandlerInScope, he]
  · decide

/-- Witness for C4 at concrete inputs: the within-scope lookup on the
blueprint finds handler 20, and the scope walk therefore returns it. -/
theorem findErrorHandler_most_specific_witness :
    findErrorHandler demoTable [some "bp", none] demoExc = some 20 :=
  findErrorHandler_most_specific.1 demoTable (some "bp") [none] demoExc 20
    (by decide)

/-- Helper: extraction ignores a mapped segment whose image it rejects. -/
theorem filterMap_map_of_none {α β : Type} (f : Event → Option β)
    (g : α → Event) (hf : ∀ a, f (g a) = none) (l : List α) :
    (l.map g).filterMap f = [] := by
  induction l with
  | nil => rfl
  | cons a l ih => simp [List.filterMap_cons, hf, ih]

/-- Helper: extraction recovers a mapped segment whose image it accepts. -/
theorem filterMap_map_of_some {α β : Type} (f : Event → Option β)
    (g : α → Event) (h : α → β) (hf : ∀ a, f (g a) = some (h a)) (l : List α) :
    (l.map g).filterMap f = l.map h := by
  induction l with
  | nil => rfl
  | cons a l ih => simp [List.filterMap_cons, hf, ih]

/-- Helper: a mapped segment whose image a predicate rejects counts zero. -/
theorem countP_map_zero {α : Type} (p : Event → Bool) (g : α → Event)
    (hf : ∀ a, p (g a) = false) (l : List α) : (l.map g).countP p = 0 := by
  induction l with
  | nil => rfl
  | cons a l ih => simp [List.countP_cons, hf, ih]

/-- Helper: the handler-call event does not occur in a mapped segment whose
image is never a handler call. -/
theorem handlerCall_not_mem_map {α : Type} (g : α → Event)
    (hg : ∀ a, g a ≠ Event.handlerCall) (l : List α) :
    Event.handlerCall ∉ l.map g := by
  intro hmem
  rcases List.mem_map.mp hmem with ⟨a, -, ha⟩
  exact hg a ha

/-- The identifiers of invoked preprocessors form a prefix of the
registration order. -/
theorem runPreprocessors_ids_prefix (l : List (Hook PreBehavior)) :
    ∃ r, (runPreprocessors l).1 ++ r = l.map Hook.id := by
  induction l with
  | nil => exact ⟨[], rfl⟩
  | cons h rest ih =>
      cases hb : h.behavior with
      | proceed =>
          obtain ⟨r, hr⟩ := ih
          exact ⟨r, by simp [runPreprocessors, hb, hr]⟩
      | raises e => exact ⟨rest.map Hook.id, by simp [runPreprocessors, hb]⟩

/-- When every preprocessor proceeds, all of them are invoked in
registration order and nothing is raised. -/
theorem runPreprocessors_all_proceed (l : List (Hook PreBehavior))
    (h : ∀ x ∈ l, x.behavior = PreBehavior.proceed) :
    runPreprocessors l = (l.map Hook.id, none) := by
  induction l with
  | nil => rfl
  | cons a rest ih =>
      have ha := h a (List.mem_cons_self a rest)
      have ih2 := ih (fun x hx => h x (List.mem_cons_of_mem a hx))
      simp [runPreprocessors, ha, ih2]

/-- The identifiers of invoked before-request hooks form a prefix of the
registration order. -/
theorem runBeforeHooks_ids_prefix (l : List (Hook BeforeBehavior)) :
    ∃ r, (runBeforeHooks l).1 ++ r = l.map Hook.id := by
  induction l with
  | nil => exact ⟨[], rfl⟩
  | cons h rest ih =>
      cases hb : h.behavior with
      | proceed =>
          obtain ⟨r, hr⟩ := ih
          exact ⟨r, by simp [runBeforeHooks, hb, hr]⟩
      | shortCircuit rv => exact ⟨rest.map Hook.id, by simp [runBeforeHooks, hb]⟩
      | raises e => exact ⟨rest.map Hook.id, by simp [runBeforeHooks, hb]⟩

/-- When every before-request hook continues, all of them are invoked in
registration order and dispatching proceeds to the handler. -/
theorem runBeforeHooks_all_proceed (l : List (Hook BeforeBehavior))
    (h : ∀ x ∈ l, x.behavior = BeforeBehavior.proceed) :
    runBeforeHooks l = (l.map Hook.id, BeforeResult.allProceeded) := by
  induction l with
  | nil => rfl
  | cons a rest ih =>
      have ha := h a (List.mem_cons_self a rest)
      have ih2 := ih (fun x hx => h x (List.mem_cons_of_mem a hx))
      simp [runBeforeHooks, ha, ih2]

/-- When the hooks before position `i` continue and hook `i` returns a
non-continue value, exactly hooks 0..i are invoked in order and the chain
short-circuits with that value. -/
theorem runBeforeHooks_first_sc (rv : HandlerRv) :
    ∀ (l : List (Hook BeforeBehavior)) (i : Nat) (hi : i < l.length),
      (∀ j (hj : j < i),
        (l.get ⟨j, Nat.lt_trans hj hi⟩).behavior = BeforeBehavior.proceed) →
      (l.get ⟨i, hi⟩).behavior = BeforeBehavior.shortCircuit rv →
      runBeforeHooks l =
        ((l.take (i + 1)).map Hook.id, BeforeResult.shortCircuit rv) := by
  intro l
  induction l with
  | nil => intro i hi; exact absurd hi (Nat.not_lt_zero i)
  | cons h rest ih =>
      intro i hi hfirst hsc
      cases i with
      | zero =>
          have hsc0 : h.behavior = BeforeBehavior.shortCircuit rv := hsc
          simp [runBeforeHooks, hsc0]
      | succ i =>
          have h0 : h.behavior = BeforeBehavior.proceed := hfirst 0 (Nat.succ_pos i)
          have hi2 : i < rest.length := Nat.lt_of_succ_lt_succ hi
          have hrec := ih i hi2 (fun j hj => hfirst (j + 1) (Nat.succ_lt_succ hj)) hsc
          simp [runBeforeHooks, h0, hrec]

/-- The identifiers of invoked after-request hooks form a prefix of the
execution order of the given list. -/
theorem runAfterHooks_ids_prefix :
    ∀ (l : List (Hook AfterBehavior)) (resp : Response),
      ∃ r, (runAfterHooks l resp).1 ++ r = l.map Hook.id := by
  intro l
  induction l with
  | nil => exact fun resp => ⟨[], rfl⟩
  | cons h rest ih =>
      intro resp
      cases hb : h.behavior with
      | keep =>
          obtain ⟨r, hr⟩ := ih resp
          exact ⟨r, by simp [runAfterHooks, hb, hr]⟩
      | replace r2 =>
          obtain ⟨r, hr⟩ := ih r2
          exact ⟨r, by simp [runAfterHooks, hb, hr]⟩
      | raises e => exact ⟨rest.map Hook.id, by simp [runAfterHooks, hb]⟩

/-- When no after-request hook raises, all of them are invoked in the given
execution order. -/
theorem runAfterHooks_no_raise :
    ∀ (l : List (Hook AfterBehavior)),
      (∀ x ∈ l, ∀ e, x.behavior ≠ AfterBehavior.raises e) →
      ∀ resp, (runAfterHooks l resp).1 = l.map Hook.id := by
  intro l
  induction l with
  | nil => exact fun _ resp => rfl
  | cons h rest ih =>
      intro hnr resp
      have ih2 := ih (fun x hx => hnr x (List.mem_cons_of_mem h hx))
      cases hb : h.behavior with
      | keep => simp [runAfterHooks, hb, ih2 resp]
      | replace r2 => simp [runAfterHooks, hb, ih2 r2]
      | raises e => exact absurd hb (hnr h (List.mem_cons_self h rest) e)

/-- When every after-request hook keeps the response it receives, the chain
returns the initial response unchanged. -/
theorem runAfterHooks_all_keep :
    ∀ (l : List (Hook AfterBehavior)),
      (∀ x ∈ l, x.behavior = AfterBehavior.keep) →
      ∀ resp, runAfterHooks l resp = (l.map Hook.id, Except.ok resp) := by
  intro l
  induction l with
  | nil => exact fun _ resp => rfl
  | cons h rest ih =>
      intro hk resp
      have ih2 := ih (fun x hx => hk x (List.mem_cons_of_mem h hx))
      have hh := hk h (List.mem_cons_self h rest)
      simp [runAfterHooks, hh, ih2 resp]

/-- Extraction distributes over concatenation. -/
theorem preIds_append (l1 l2 : List Event) :
    preIds (l1 ++ l2) = preIds l1 ++ preIds l2 := by
  simp [preIds, List.filterMap_append]

/-- Extraction recovers its own mapped segment. -/
theorem preIds_map_own (l : List Nat) : preIds (l.map Event.preprocessor) = l := by
  induction l with
  | nil => rfl
  | cons a l ih =>
      simp only [preIds] at ih ⊢
      simp [ih]

/-- Extraction ignores the context pushes. -/
theorem preIds_ctxPush (c : Bool) :
    preIds ((if c then [] else [Event.pushApp]) ++ [Event.pushReq]) = [] := by
  cases c <;> rfl

/-- Extraction ignores the context pops. -/
theorem preIds_ctxPop (c : Bool) :
    preIds (Event.popReq :: (if c then [] else [Event.popApp])) = [] := by
  cases c <;> rfl

/-- Extraction ignores a handler call. -/
theorem preIds_handlerCall : preIds [Event.handlerCall] = [] := rfl

/-- Extraction of the empty trace. -/
theorem preIds_nil : preIds [] = [] := rfl

/-- Extraction ignores a foreign mapped segment. -/
theorem preIds_map_beforeHook (l : List Nat) : preIds (l.map Event.beforeHook) = [] :=
  filterMap_map_of_none _ _ (fun _ => rfl) l

/-- Extraction ignores a foreign mapped segment. -/
theorem preIds_map_afterHook (l : List Nat) : preIds (l.map Event.afterHook) = [] :=
  filterMap_map_of_none _ _ (fun _ => rfl) l

/-- Extraction ignores a foreign mapped segment. -/
theorem preIds_map_teardownHook (l : List Nat) : preIds (l.map Event.teardownHook) = [] :=
  filterMap_map_of_none _ _ (fun _ => rfl) l

/-- Extraction distributes over concatenation. -/
theorem beforeIds_append (l1 l2 : List Event) :
    beforeIds (l1 ++ l2) = beforeIds l1 ++ beforeIds l2 := by
  simp [beforeIds, List.filterMap_append]

/-- Extraction recovers its own mapped segment. -/
theorem beforeIds_map_own (l : List Nat) : beforeIds (l.map Event.beforeHook) = l := by
  induction l with
  | nil => rfl
  | cons a l ih =>
      simp only [beforeIds] at ih ⊢
      simp [ih]

/-- Extraction ignores the context pushes. -/
theorem beforeIds_ctxPush (c : Bool) :
    beforeIds ((if c then [] else [Event.pushApp]) ++ [Event.pushReq]) = [] := by
  cases c <;> rfl

/-- Extraction ignores the context pops. -/
theorem beforeIds_ctxPop (c : Bool) :
    beforeIds (Event.popReq :: (if c then [] else [Event.popApp])) = [] := by
  cases c <;> rfl

/-- Extraction ignores a handler call. -/
theorem beforeIds_handlerCall : beforeIds [Event.handlerCall] = [] := rfl

/-- Extraction of the empty trace. -/
theorem beforeIds_nil : beforeIds [] = [] := rfl

/-- Extraction ignores a foreign mapped segment. -/
theorem beforeIds_map_preprocessor (l : List Nat) : beforeIds (l.map Event.preprocessor) = [] :=
  filterMap_map_of_none _ _ (fun _ => rfl) l

/-- Extraction ignores a foreign mapped segment. -/
theorem beforeIds_map_afterHook (l : List Nat) : beforeIds (l.map Event.afterHook) = [] :=
  filterMap_map_of_none _ _ (fun _ => rfl) l

/-- Extraction ignores a foreign mapped segment. -/
theorem beforeIds_map_teardownHook (l : List Nat) : beforeIds (l.map Event.teardownHook) = [] :=
  filterMap_map_of_none _ _ (fun _ => rfl) l

/-- Extraction distributes over concatenation. -/
theorem afterIds_append (l1 l2 : List Event) :
    afterIds (l1 ++ l2) = afterIds l1 ++ afterIds l2 := by
  simp [afterIds, List.filterMap_append]

/-- Extraction recovers its own mapped segment. -/
theorem afterIds_map_own (l : List Nat) : afterIds (l.map Event.afterHook) = l := by
  induction l with
  | nil => rfl
  | cons a l ih =>
      simp only [afterIds] at ih ⊢
      simp [ih]

/-- Extraction ignores the context pushes. -/
theorem afterIds_ctxPush (c : Bool) :
    afterIds ((if c then [] else [Event.pushApp]) ++ [Event.pushReq]) = [] := by
  cases c <;> rfl

/-- Extraction ignores the context pops. -/
theorem afterIds_ctxPop (c : Bool) :
    afterIds (Event.popReq :: (if c then [] else [Event.popApp])) = [] := by
  cases c <;> rfl

/-- Extraction ignores a handler call. -/
theorem afterIds_handlerCall : afterIds [Event.handlerCall] = [] := rfl

/-- Extraction of the empty trace. -/
theorem afterIds_nil : afterIds [] = [] := rfl

/-- Extraction ignores a foreign mapped segment. -/
theorem afterIds_map_preprocessor (l : List Nat) : afterIds (l.map Event.preprocessor) = [] :=
  filterMap_map_of_none _ _ (fun _ => rfl) l

/-- Extraction ignores a foreign mapped segment. -/
theorem afterIds_map_beforeHook (l : List Nat) : afterIds (l.map Event.beforeHook) = [] :=
  filterMap_map_of_none _ _ (fun _ => rfl) l

/-- Extraction ignores a foreign mapped segment. -/
theorem afterIds_map_teardownHook (l : List Nat) : afterIds (l.map Event.teardownHook) = [] :=
  filterMap_map_of_none _ _ (fun _ => rfl) l

/-- Extraction distributes over concatenation. -/
theorem teardownIds_append (l1 l2 : List Event) :
    teardownIds (l1 ++ l2) = teardownIds l1 ++ teardownIds l2 := by
  simp [teardownIds, List.filterMap_append]

/-- Extraction recovers its own mapped segment. -/
theorem teardownIds_map_own (l : List Nat) : teardownIds (l.map Event.teardownHook) = l := by
  induction l with
  | nil => rfl
  | cons a l ih =>
      simp only [teardownIds] at ih ⊢
      simp [ih]

/-- Extraction ignores the context pushes. -/
theorem teardownIds_ctxPush (c : Bool) :
    teardownIds ((if c then [] else [Event.pushApp]) ++ [Event.pushReq]) = [] := by
  cases c <;> rfl

/-- Extraction ignores the context pops. -/
theorem teardownIds_ctxPop (c : Bool) :
    teardownIds (Event.popReq :: (if c then [] else [Event.popApp])) = [] := by
  cases c <;> rfl

/-- Extraction ignores a handler call. -/
theorem teardownIds_handlerCall : teardownIds [Event.handlerCall] = [] := rfl

/-- Extraction of the empty trace. -/
theorem teardownIds_nil : teardownIds [] = [] := rfl

/-- Extraction ignores a foreign mapped segment. -/
theorem teardownIds_map_preprocessor (l : List Nat) : teardownIds (l.map Event.preprocessor) = [] :=
  filterMap_map_of_none _ _ (fun _ => rfl) l

/-- Extraction ignores a foreign mapped segment. -/
theorem teardownIds_map_beforeHook (l : List Nat) : teardownIds (l.map Event.beforeHook) = [] :=
  filterMap_map_of_none _ _ (fun _ => rfl) l

/-- Extraction ignores a foreign mapped segment. -/
theorem teardownIds_map_afterHook (l : List Nat) : teardownIds (l.map Event.afterHook) = [] :=
  filterMap_map_of_none _ _ (fun _ => rfl) l

/-- Extraction ignores the conditional application-context push. -/
theorem preIds_ctxApp (c : Bool) :
    preIds (if c then [] else [Event.pushApp]) = [] := by
  cases c <;> rfl

/-- Extraction ignores the request-context push. -/
theorem preIds_pushReq : preIds [Event.pushReq] = [] := rfl

/-- Extraction ignores the conditional application-context push. -/
theorem beforeIds_ctxApp (c : Bool) :
    beforeIds (if c then [] else [Event.pushApp]) = [] := by
  cases c <;> rfl

/-- Extraction ignores the request-context push. -/
theorem beforeIds_pushReq : beforeIds [Event.pushReq] = [] := rfl

/-- Extraction ignores the conditional application-context push. -/
theorem afterIds_ctxApp (c : Bool) :
    afterIds (if c then [] else [Event.pushApp]) = [] := by
  cases c <;> rfl

/-- Extraction ignores the request-context push. -/
theorem afterIds_pushReq : afterIds [Event.pushReq] = [] := rfl

/-- Extraction ignores the conditional application-context push. -/
theorem teardownIds_ctxApp (c : Bool) :
    teardownIds (if c then [] else [Event.pushApp]) = [] := by
  cases c <;> rfl

/-- Extraction ignores the request-context push. -/
theorem teardownIds_pushReq : teardownIds [Event.pushReq] = [] := rfl

/-- The PREPROCESSING and DISPATCHING events decompose into preprocessor
events, then before-hook events, then at most one handler call, with the
invoked identifiers forming prefixes of the registration orders. -/
theorem runURR_events (env : DispatchEnv) :
    ∃ pids bids hevs,
      (runUntilResponseReady env).1 =
        pids.map Event.preprocessor ++ (bids.map Event.beforeHook ++ hevs) ∧
      (hevs = [] ∨ hevs = [Event.handlerCall]) ∧
      (∃ r, pids ++ r = env.preprocessors.map Hook.id) ∧
      (∃ r, bids ++ r = env.beforeHooks.map Hook.id) := by
  cases hp : (runPreprocessors env.preprocessors).2 with
  | some e =>
      refine ⟨(runPreprocessors env.preprocessors).1, [], [], ?_, Or.inl rfl,
        runPreprocessors_ids_prefix env.preprocessors,
        ⟨env.beforeHooks.map Hook.id, by simp⟩⟩
      simp [runUntilResponseReady, hp]
  | none =>
      cases hb : (runBeforeHooks env.beforeHooks).2 with
      | raised e =>
          refine ⟨(runPreprocessors env.preprocessors).1,
            (runBeforeHooks env.beforeHooks).1, [], ?_, Or.inl rfl,
            runPreprocessors_ids_prefix env.preprocessors,
            runBeforeHooks_ids_prefix env.beforeHooks⟩
          simp [runUntilResponseReady, hp, hb]
      | shortCircuit rv =>
          refine ⟨(runPreprocessors env.preprocessors).1,
            (runBeforeHooks env.beforeHooks).1, [], ?_, Or.inl rfl,
            runPreprocessors_ids_prefix env.preprocessors,
            runBeforeHooks_ids_prefix env.beforeHooks⟩
          simp [runUntilResponseReady, hp, hb]
      | allProceeded =>
          cases hh : env.handler with
          | returns rv =>
              refine ⟨(runPreprocessors env.preprocessors).1,
                (runBeforeHooks env.beforeHooks).1, [Event.handlerCall], ?_,
                Or.inr rfl, runPreprocessors_ids_prefix env.preprocessors,
                runBeforeHooks_ids_prefix env.beforeHooks⟩
              simp [runUntilResponseReady, hp, hb, hh]
          | raises e =>
              refine ⟨(runPreprocessors env.preprocessors).1,
                (runBeforeHooks env.beforeHooks).1, [Event.handlerCall], ?_,
                Or.inr rfl, runPreprocessors_ids_prefix env.preprocessors,
                runBeforeHooks_ids_prefix env.beforeHooks⟩
              simp [runUntilResponseReady, hp, hb, hh]
          | cancelled =>
              refine ⟨(runPreprocessors env.preprocessors).1,
                (runBeforeHooks env.beforeHooks).1, [Event.handlerCall], ?_,
                Or.inr rfl, runPreprocessors_ids_prefix env.preprocessors,
                runBeforeHooks_ids_prefix env.beforeHooks⟩
              simp [runUntilResponseReady, hp, hb, hh]

/-- The trace of one dispatched request decomposes into context pushes, the
core events, after-hook events whose identifiers form a prefix of the
reverse registration order, all teardown events in reverse registration
order, and context pops. -/
theorem fullDispatch_events (env : DispatchEnv) :
    ∃ aids,
      (fullDispatch env).1 =
        ((if env.appCtxActive then [] else [Event.pushApp]) ++ [Event.pushReq]) ++
          ((runUntilResponseReady env).1 ++
            (aids.map Event.afterHook ++
              (((env.teardownHooks.map Hook.id).reverse).map Event.teardownHook ++
                (Event.popReq :: (if env.appCtxActive then [] else [Event.popApp]))))) ∧
      (∃ r, aids ++ r = (env.afterHooks.map Hook.id).reverse) := by
  cases hc : (runUntilResponseReady env).2 with
  | error f =>
      refine ⟨[], ?_, (env.afterHooks.map Hook.id).reverse, by simp⟩
      simp [fullDispatch, hc, List.map_reverse]
  | ok resp =>
      have hpref : ∃ r, (runAfterHooks env.afterHooks.reverse resp).1 ++ r =
          (env.afterHooks.map Hook.id).reverse := by
        obtain ⟨r2, hr2⟩ := runAfterHooks_ids_prefix env.afterHooks.reverse resp
        exact ⟨r2, by rw [hr2, List.map_reverse]⟩
      cases ha : (runAfterHooks env.afterHooks.reverse resp).2 with
      | ok r =>
          exact ⟨(runAfterHooks env.afterHooks.reverse resp).1,
            by simp [fullDispatch, hc, ha, List.map_reverse], hpref⟩
      | error e =>
          cases hhe : handleError env e with
          | ok r =>
              exact ⟨(runAfterHooks env.afterHooks.reverse resp).1,
                by simp [fullDispatch, hc, ha, hhe, List.map_reverse], hpref⟩
          | error f =>
              exact ⟨(runAfterHooks env.afterHooks.reverse resp).1,
                by simp [fullDispatch, hc, ha, hhe, List.map_reverse], hpref⟩

/-- C1: the FINALIZING step runs on every exit path (success, a
short-circuiting hook, handler fault, hook fault, or cancellation): for
every dispatch environment the trace balances Context Stack pushes and
pops, and the Request Context pop always occurs. -/
theorem push_pop_balance (env : DispatchEnv) :
    (fullDispatch env).1.countP Event.isPush =
      (fullDispatch env).1.countP Event.isPop ∧
    Event.popReq ∈ (fullDispatch env).1 := by
  obtain ⟨aids, htr, -⟩ := fullDispatch_events env
  obtain ⟨pids, bids, hevs, hcore, hh, -, -⟩ := runURR_events env
  constructor
  · rw [htr, hcore]
    rcases hh with rfl | rfl <;> cases henv : env.appCtxActive <;>
      (simp only [List.countP_append, List.countP_cons, List.countP_nil,
        countP_map_zero Event.isPush Event.preprocessor (fun _ => rfl),
        countP_map_zero Event.isPush Event.beforeHook (fun _ => rfl),
        countP_map_zero Event.isPush Event.afterHook (fun _ => rfl),
        countP_map_zero Event.isPush Event.teardownHook (fun _ => rfl),
        countP_map_zero Event.isPop Event.preprocessor (fun _ => rfl),
        countP_map_zero Event.isPop Event.beforeHook (fun _ => rfl),
        countP_map_zero Event.isPop Event.afterHook (fun _ => rfl),
        countP_map_zero Event.isPop Event.teardownHook (fun _ => rfl)];
       simp [Event.isPush, Event.isPop])
  · rw [htr]
    simp

/-- C2: the first before-request hook returning a non-continue value
short-circuits: with the hooks before position i continuing and hook i
returning value rv, exactly hooks 0..i run (in order), the handler is never
invoked, the value entering RESPONSE_READY is rv converted by the canonical
conversion, and with after-request hooks that keep their input it is the
final response of the request. -/
theorem before_hook_short_circuit (env : DispatchEnv) (i : Nat) (rv : HandlerRv)
    (hi : i < env.beforeHooks.length)
    (hpre : ∀ x ∈ env.preprocessors, x.behavior = PreBehavior.proceed)
    (hfirst : ∀ j (hj : j < i),
      (env.beforeHooks.get ⟨j, Nat.lt_trans hj hi⟩).behavior =
        BeforeBehavior.proceed)
    (hsc : (env.beforeHooks.get ⟨i, hi⟩).behavior =
      BeforeBehavior.shortCircuit rv) :
    beforeIds (fullDispatch env).1 =
      (env.beforeHooks.take (i + 1)).map Hook.id ∧
    Event.handlerCall ∉ (fullDispatch env).1 ∧
    (runUntilResponseReady env).2 = make_response rv ∧
    (∀ resp, make_response rv = Except.ok resp →
      (∀ x ∈ env.afterHooks, x.behavior = AfterBehavior.keep) →
      (fullDispatch env).2 = DispatchResult.response resp) := by
  have hp := runPreprocessors_all_proceed env.preprocessors hpre
  have hb := runBeforeHooks_first_sc rv env.beforeHooks i hi hfirst hsc
  have hcore : runUntilResponseReady env =
      ((env.preprocessors.map Hook.id).map Event.preprocessor ++
        (((env.beforeHooks.take (i + 1)).map Hook.id).map Event.beforeHook),
        make_response rv) := by
    simp [runUntilResponseReady, hp, hb]
  obtain ⟨aids, htr, -⟩ := fullDispatch_events env
  have hcore1 : (runUntilResponseReady env).1 =
      (env.preprocessors.map Hook.id).map Event.preprocessor ++
        (((env.beforeHooks.take (i + 1)).map Hook.id).map Event.beforeHook) := by
    rw [hcore]
  refine ⟨?_, ?_, by rw [hcore], ?_⟩
  · rw [htr, hcore1]
    simp only [beforeIds_append, beforeIds_ctxApp, beforeIds_pushReq,
      beforeIds_ctxPop, beforeIds_map_own, beforeIds_map_preprocessor,
      beforeIds_map_afterHook, beforeIds_map_teardownHook, List.nil_append,
      List.append_nil]
  · rw [htr, hcore1]
    intro hmem
    simp only [List.mem_append, List.mem_cons] at hmem
    rcases hmem with ((h1 | h1) | ((h2 | h3) | (h4 | (h5 | (h6 | h7))))) <;>
      first
      | exact handlerCall_not_mem_map Event.preprocessor (fun _ => by simp) _
          (by assumption)
      | exact handlerCall_not_mem_map Event.beforeHook (fun _ => by simp) _
          (by assumption)
      | exact handlerCall_not_mem_map Event.afterHook (fun _ => by simp) _
          (by assumption)
      | exact handlerCall_not_mem_map Event.teardownHook (fun _ => by simp) _
          (by assumption)
      | (revert h1; cases env.appCtxActive <;> simp)
      | simp_all
  · intro resp hresp hkeep
    have hk := runAfterHooks_all_keep env.afterHooks.reverse
      (fun x hx => hkeep x (List.mem_reverse.mp hx)) resp
    have hcore2 : (runUntilResponseReady env).2 = Except.ok resp := by
      rw [hcore, hresp]
    simp [fullDispatch, hcore2, hk]

/-- C3: for every request, whatever the outcome, teardown-request hooks
execute in reverse registration order; after-request hooks execute in
reverse registration order (an after-hook fault only truncates the tail),
and before-request hooks and url-value preprocessors execute in
registration order (a short-circuit or fault only truncates the tail), with
the full sequences on an undisturbed request. -/
theorem hook_ordering (env : DispatchEnv) :
    teardownIds (fullDispatch env).1 = (env.teardownHooks.map Hook.id).reverse ∧
    (∃ r, afterIds (fullDispatch env).1 ++ r =
      (env.afterHooks.map Hook.id).reverse) ∧
    (∃ r, beforeIds (fullDispatch env).1 ++ r = env.beforeHooks.map Hook.id) ∧
    (∃ r, preIds (fullDispatch env).1 ++ r = env.preprocessors.map Hook.id) ∧
    ((∀ x ∈ env.preprocessors, x.behavior = PreBehavior.proceed) →
      (∀ x ∈ env.beforeHooks, x.behavior = BeforeBehavior.proceed) →
      preIds (fullDispatch env).1 = env.preprocessors.map Hook.id ∧
      beforeIds (fullDispatch env).1 = env.beforeHooks.map Hook.id) ∧
    (∀ rv resp, env.handler = HandlerBehavior.returns rv →
      make_response rv = Except.ok resp →
      (∀ x ∈ env.preprocessors, x.behavior = PreBehavior.proceed) →
      (∀ x ∈ env.beforeHooks, x.behavior = BeforeBehavior.proceed) →
      (∀ x ∈ env.afterHooks, ∀ e, x.behavior ≠ AfterBehavior.raises e) →
      afterIds (fullDispatch env).1 = (env.afterHooks.map Hook.id).reverse) := by
  obtain ⟨aids, htr, ⟨ra, hra⟩⟩ := fullDispatch_events env
  obtain ⟨pids, bids, hevs, hcore, hh, ⟨rp, hrp⟩, ⟨rb, hrb⟩⟩ := runURR_events env
  refine ⟨?_, ?_, ?_, ?_, ?_, ?_⟩
  · rw [htr, hcore]
    rcases hh with rfl | rfl <;>
      simp only [teardownIds_append, teardownIds_ctxApp, teardownIds_pushReq,
        teardownIds_ctxPop, teardownIds_map_own, teardownIds_map_preprocessor,
        teardownIds_map_beforeHook, teardownIds_map_afterHook,
        teardownIds_handlerCall, teardownIds_nil, List.nil_append,
        List.append_nil]
  · refine ⟨ra, ?_⟩
    rw [htr, hcore]
    rcases hh with rfl | rfl <;>
      (simp only [afterIds_append, afterIds_ctxApp, afterIds_pushReq,
        afterIds_ctxPop, afterIds_map_own, afterIds_map_preprocessor,
        afterIds_map_beforeHook, afterIds_map_teardownHook,
        afterIds_handlerCall, afterIds_nil, List.nil_append, List.append_nil];
       exact hra)
  · refine ⟨rb, ?_⟩
    rw [htr, hcore]
    rcases hh with rfl | rfl <;>
      (simp only [beforeIds_append, beforeIds_ctxApp, beforeIds_pushReq,
        beforeIds_ctxPop, beforeIds_map_own, beforeIds_map_preprocessor,
        beforeIds_map_afterHook, beforeIds_map_teardownHook,
        beforeIds_handlerCall, beforeIds_nil, List.nil_append, List.append_nil];
       exact hrb)
  · refine ⟨rp, ?_⟩
    rw [htr, hcore]
    rcases hh with rfl | rfl <;>
      (simp only [preIds_append, preIds_ctxApp, preIds_pushReq, preIds_ctxPop,
        preIds_map_own, preIds_map_beforeHook, preIds_map_afterHook,
        preIds_map_teardownHook, preIds_handlerCall, preIds_nil,
        List.nil_append, List.append_nil];
       exact hrp)
  · intro hpre hbef
    have hp := runPreprocessors_all_proceed env.preprocessors hpre
    have hb := runBeforeHooks_all_proceed env.beforeHooks hbef
    have hcore2 : (runUntilResponseReady env).1 =
        (env.preprocessors.map Hook.id).map Event.preprocessor ++
          (((env.beforeHooks.map Hook.id).map Event.beforeHook) ++
            [Event.handlerCall]) := by
      cases hhand : env.handler <;> simp [runUntilResponseReady, hp, hb, hhand]
    rw [htr, hcore2]
    constructor
    · simp only [preIds_append, preIds_ctxApp, preIds_pushReq, preIds_ctxPop,
        preIds_map_own, preIds_map_beforeHook, preIds_map_afterHook,
        preIds_map_teardownHook, preIds_handlerCall, preIds_nil,
        List.nil_append, List.append_nil]
    · simp only [beforeIds_append, beforeIds_ctxApp, beforeIds_pushReq,
        beforeIds_ctxPop, beforeIds_map_own, beforeIds_map_preprocessor,
        beforeIds_map_afterHook, beforeIds_map_teardownHook,
        beforeIds_handlerCall, beforeIds_nil, List.nil_append, List.append_nil]
  · intro rv resp hhand hconv hpre hbef hnr
    have hp := runPreprocessors_all_proceed env.preprocessors hpre
    have hb := runBeforeHooks_all_proceed env.beforeHooks hbef
    have hcore2 : runUntilResponseReady env =
        ((env.preprocessors.map Hook.id).map Event.preprocessor ++
          (((env.beforeHooks.map Hook.id).map Event.beforeHook) ++
            [Event.handlerCall]), Except.ok resp) := by
      simp [runUntilResponseReady, hp, hb, hhand, hconv]
    have hA : (runAfterHooks env.afterHooks.reverse resp).1 =
        env.afterHooks.reverse.map Hook.id :=
      runAfterHooks_no_raise env.afterHooks.reverse
        (fun x hx e => hnr x (List.mem_reverse.mp hx) e) resp
    have hfin : (fullDispatch env).1 =
        ((if env.appCtxActive then [] else [Event.pushApp]) ++ [Event.pushReq]) ++
          ((runUntilResponseReady env).1 ++
            (((env.afterHooks.map Hook.id).reverse).map Event.afterHook ++
              (((env.teardownHooks.map Hook.id).reverse).map Event.teardownHook ++
                (Event.popReq ::
                  (if env.appCtxActive then [] else [Event.popApp]))))) := by
      have hA2 : (runAfterHooks env.afterHooks.reverse resp).1 =
          (env.afterHooks.map Hook.id).reverse := by
        rw [hA, List.map_reverse]
      cases ha : (runAfterHooks env.afterHooks.reverse resp).2 with
      | ok r => simp [fullDispatch, hcore2, ha, hA2, List.map_reverse]
      | error e =>
          cases hhe : handleError env e <;>
            simp [fullDispatch, hcore2, ha, hhe, hA2, List.map_reverse]
    rw [hfin, hcore2]
    simp only [afterIds_append, afterIds_ctxApp, afterIds_pushReq,
      afterIds_ctxPop, afterIds_map_own, afterIds_map_preprocessor,
      afterIds_map_beforeHook, afterIds_map_teardownHook, afterIds_handlerCall,
      afterIds_nil, List.nil_append, List.append_nil]

/-- Concrete dispatch environment for the C2 witness: before hook 1
continues, hook 2 short-circuits with body "early", hook 3 is never
reached; the handler would return "late"; two keeping after hooks; three
teardown hooks. -/
def demoEnv : DispatchEnv where
  preprocessors := []
  beforeHooks :=
    [⟨1, .proceed⟩, ⟨2, .shortCircuit (.body "early")⟩, ⟨3, .proceed⟩]
  handler := .returns (.body "late")
  afterHooks := [⟨4, .keep⟩, ⟨5, .keep⟩]
  teardownHooks := [⟨6, false⟩, ⟨7, false⟩, ⟨8, false⟩]
  errorHandler := fun _ => none
  propagate := false
  appCtxActive := false

/-- Concrete dispatch environment for the C3 witness: an undisturbed
request with preprocessors 10 and 11, before hooks 20 and 21, a returning
handler, after hooks 30 and 31, teardown hooks 1, 2 and 3. -/
def demoEnv2 : DispatchEnv where
  preprocessors := [⟨10, .proceed⟩, ⟨11, .proceed⟩]
  beforeHooks := [⟨20, .proceed⟩, ⟨21, .proceed⟩]
  handler := .returns (.body "ok")
  afterHooks := [⟨30, .keep⟩, ⟨31, .keep⟩]
  teardownHooks := [⟨1, false⟩, ⟨2, false⟩, ⟨3, false⟩]
  errorHandler := fun _ => none
  propagate := false
  appCtxActive := false

/-- Witness for C2 at concrete inputs: in `demoEnv` hooks 1 and 2 run, hook
3 and the handler never run, and the response is the converted
short-circuit value. -/
theorem before_hook_short_circuit_witness :
    beforeIds (fullDispatch demoEnv).1 = [1, 2] ∧
    Event.handlerCall ∉ (fullDispatch demoEnv).1 ∧
    (runUntilResponseReady demoEnv).2 = Except.ok ⟨200, [], "early"⟩ ∧
    (fullDispatch demoEnv).2 = DispatchResult.response ⟨200, [], "early"⟩ := by
  have h := before_hook_short_circuit demoEnv 1 (HandlerRv.body "early")
    (by decide) (by decide)
    (fun j hj => by
      cases j with
      | zero => rfl
      | succ n => exact absurd hj (by omega))
    rfl
  exact ⟨h.1.trans (by decide), h.2.1, h.2.2.1.trans rfl,
    h.2.2.2 ⟨200, [], "early"⟩ rfl (by decide)⟩

/-- Witness for C3 at concrete inputs: in `demoEnv2` the teardown hooks
registered [1, 2, 3] run as [3, 2, 1], the after hooks registered [30, 31]
run as [31, 30], and the preprocessors and before hooks run in registration
order. -/
theorem hook_ordering_witness :
    teardownIds (fullDispatch demoEnv2).1 = [3, 2, 1] ∧
    preIds (fullDispatch demoEnv2).1 = [10, 11] ∧
    beforeIds (fullDispatch demoEnv2).1 = [20, 21] ∧
    afterIds (fullDispatch demoEnv2).1 = [31, 30] := by
  have h := hook_ordering demoEnv2
  refine ⟨h.1.trans (by decide), ?_, ?_, ?_⟩
  · exact (h.2.2.2.2.1 (by decide) (by decide)).1.trans (by decide)
  · exact (h.2.2.2.2.1 (by decide) (by decide)).2.trans (by decide)
  · refine (h.2.2.2.2.2 (HandlerRv.body "ok") ⟨200, [], "ok"⟩ rfl rfl
      (by decide) (by decide) ?_).trans (by decide)
    intro x hx e
    fin_cases hx <;> simp
